import Mathlib

/-!
Shallow embedding of the JuaAI Smart Farmer App client core
(src/scripts/storage.js and the CropAI modules in src/unnamed/part_004,
part_005, part_006), together with theorems settling the frozen claims
about the analysis-result pipeline, the cache with expiry, the bounded
history, the statistics and the user preferences.

Conventions of the embedding:
* JavaScript numbers carrying confidences and random draws are rationals;
  timestamps from Date.now are naturals (milliseconds).
* JavaScript objects used as string-keyed maps (the cache object, the
  diseaseCount object, the preferences object) are association lists in
  insertion order, which matches the enumeration order of string keys.
* Fields that a given code path may leave undefined are Options.
* The host localStorage is modelled as always succeeding; the try/catch
  wrappers setItem/getItem/removeItem only convert host failures into
  booleans and are orthogonal to every claim.
-/

/-- The canonical analysis record, as produced by the CropAI result
constructors and stored by StorageManager.saveAnalysisResult.  Fields
that some producers omit are Options with default none. -/
structure AnalysisRecord where
  id : Nat
  timestamp : Option Nat := none
  date : Option String := none
  status : String
  confidence : ℚ
  result : String
  description : String := ""
  recommendations : List String := []
  prevention : Option (List String) := none
  symptoms : Option (List String) := none
  severity : String
  color : String := ""
  source : Option String := none
  note : Option String := none
  fromBackend : Option Bool := none
  backend_used : Option Bool := none
  model_info : Option String := none
deriving DecidableEq, Inhabited

/-- JavaScript `a || b` for an optional string `a`: the empty string is
falsy, so it also falls through to the default. -/
def jsOr (a : Option String) (b : String) : String :=
  match a with
  | none => b
  | some s => if s = "" then b else s

/-- Reading a key of a JavaScript object modelled as an association
list: the value at the first matching key, if any. -/
def lookupKey {α : Type} (m : List (String × α)) (k : String) : Option α :=
  (m.find? fun p => p.1 == k).map Prod.snd

/-- Writing `m[k] = v` on a JavaScript object: overwrite the existing
entry in place, or append a fresh entry (string keys enumerate in
insertion order). -/
def setKey {α : Type} (m : List (String × α)) (k : String) (v : α) : List (String × α) :=
  if m.any fun p => p.1 == k then
    m.map fun p => if p.1 == k then (k, v) else p
  else
    m ++ [(k, v)]

/-- The JavaScript `delete m[k]` operation on an object. -/
def removeKey {α : Type} (m : List (String × α)) (k : String) : List (String × α) :=
  m.filter fun p => !(p.1 == k)

/-! ## StorageManager (src/scripts/storage.js) -/

namespace StorageManager

/-- `this.maxHistoryItems` from the StorageManager constructor. -/
def maxHistoryItems : Nat := 50

/-- The cache entries written by setCachedData: `data` is the cached
payload (opaque here), `timestamp` its storing instant, `expiry` the
expiration instant. -/
structure CacheEntry where
  data : String
  timestamp : Nat
  expiry : Nat
deriving DecidableEq, Inhabited

/-- setCachedData (storage.js lines 357-367): wraps the payload with
`timestamp = Date.now()` and `expiry = Date.now() + expireInMinutes *
60 * 1000` and overwrites `cache[key]`. -/
def setCachedData (cache : List (String × CacheEntry)) (key : String) (data : String)
    (expireInMinutes : Nat) (now : Nat) : List (String × CacheEntry) :=
  setKey cache key { data := data, timestamp := now, expiry := now + expireInMinutes * 60 * 1000 }

/-- getCachedData (storage.js lines 369-386): absent key gives null; an
entry with `Date.now() > expiry` is deleted from the cache object and
null is returned; otherwise the stored data is returned.  The result is
the pair (returned value, cache object after the call). -/
def getCachedData (cache : List (String × CacheEntry)) (key : String) (now : Nat) :
    Option String × List (String × CacheEntry) :=
  match lookupKey cache key with
  | none => (none, cache)
  | some cacheItem =>
    if now > cacheItem.expiry then (none, removeKey cache key)
    else (some cacheItem.data, cache)

/-- The timestamp stamping in saveAnalysisResult: `if (!result.timestamp)
result.timestamp = Date.now()`.  A missing timestamp and the falsy
timestamp 0 are both replaced. -/
def stampTimestamp (now : Nat) (r : AnalysisRecord) : AnalysisRecord :=
  if r.timestamp.getD 0 = 0 then { r with timestamp := some now } else r

/-- saveAnalysisResult (storage.js lines 59-76): stamp the timestamp,
unshift onto the history, and splice away everything past index 50. -/
def saveAnalysisResult (now : Nat) (result : AnalysisRecord)
    (history : List AnalysisRecord) : List AnalysisRecord :=
  ((stampTimestamp now result) :: history).take maxHistoryItems

/-- deleteAnalysisItem (storage.js lines 93-97): keep every item whose
id differs from the argument. -/
def deleteAnalysisItem (id : Nat) (history : List AnalysisRecord) : List AnalysisRecord :=
  history.filter fun item => !(item.id == id)

/-- A stored preference value (the defaults use strings and a boolean). -/
inductive PrefValue where
  | str (s : String)
  | flag (b : Bool)
deriving DecidableEq, Inhabited

/-- The default user preferences object created by init and returned by
getUserPreferences when nothing is stored. -/
def defaultPreferences : List (String × PrefValue) :=
  [("language", .str "en"), ("location", .str "Nairobi, Kenya"), ("notifications", .flag true)]

/-- The three juaai localStorage namespaces as one state record:
juaai_analysis_history, juaai_user_preferences, juaai_cache.  A `none`
component models an absent localStorage key. -/
structure StorageState where
  analysisHistory : Option (List AnalysisRecord)
  userPreferences : Option (List (String × PrefValue))
  cache : Option (List (String × CacheEntry))
deriving DecidableEq

/-- getUserPreferences (storage.js lines 104-110): the stored object or
the defaults. -/
def getUserPreferences (s : StorageState) : List (String × PrefValue) :=
  s.userPreferences.getD defaultPreferences

/-- setUserPreference (storage.js lines 112-116): load the preferences,
assign the one key, and store them back; no other namespace is touched. -/
def setUserPreference (s : StorageState) (key : String) (value : PrefValue) : StorageState :=
  { s with userPreferences := some (setKey (getUserPreferences s) key value) }

/-! ### getAnalysisStatistics (storage.js lines 393-436) -/

/-- `diseaseCount[k] = (diseaseCount[k] || 0) + 1` on the counting
object. -/
def bump (counts : List (String × Nat)) (k : String) : List (String × Nat) :=
  setKey counts k ((lookupKey counts k).getD 0 + 1)

/-- `diseaseCount[k]` as read by the reduce comparator. -/
def countOf (counts : List (String × Nat)) (k : String) : Nat :=
  (lookupKey counts k).getD 0

/-- The mutable accumulators of the forEach loop in
getAnalysisStatistics. -/
structure StatsAcc where
  healthy : Nat
  diseased : Nat
  counts : List (String × Nat)
  totalConfidence : ℚ
deriving DecidableEq

/-- One iteration of the forEach loop: healthy items are tallied;
other items are tallied as diseased and, when their result label is a
non-empty string other than "Healthy Crop", counted per label; every
item contributes its confidence. -/
def statsStep (acc : StatsAcc) (item : AnalysisRecord) : StatsAcc :=
  if item.status = "healthy" then
    { acc with healthy := acc.healthy + 1,
               totalConfidence := acc.totalConfidence + item.confidence }
  else
    { acc with diseased := acc.diseased + 1,
               counts := if item.result ≠ "" ∧ item.result ≠ "Healthy Crop" then
                   bump acc.counts item.result
                 else acc.counts,
               totalConfidence := acc.totalConfidence + item.confidence }

/-- `Object.keys(diseaseCount).reduce((a, b) => diseaseCount[a] >
diseaseCount[b] ? a : b)`: reduce without an initial value starts from
the first key, and on a tie keeps the second argument. -/
def mostCommon (counts : List (String × Nat)) : Option String :=
  match counts.map Prod.fst with
  | [] => none
  | k :: ks => some (ks.foldl (fun a b => if countOf counts a > countOf counts b then a else b) k)

/-- The statistics record returned by getAnalysisStatistics.
lastAnalysis is `history[0]?.date || history[0]?.timestamp`, hence
either a date string or a timestamp number. -/
structure AnalysisStatistics where
  total : Nat
  healthy : Nat
  diseased : Nat
  lastAnalysis : Option (String ⊕ Nat)
  mostCommonDisease : Option String
  averageConfidence : ℚ
deriving DecidableEq

/-- The `history[0]?.date || history[0]?.timestamp` expression for a
non-empty history (the empty string is falsy). -/
def lastAnalysisOf (r : AnalysisRecord) : Option (String ⊕ Nat) :=
  match r.date with
  | some d => if d = "" then r.timestamp.map Sum.inr else some (Sum.inl d)
  | none => r.timestamp.map Sum.inr

/-- getAnalysisStatistics (storage.js lines 393-436): the empty history
returns the all-zero statistics before any division or head access;
otherwise one left-to-right pass accumulates the tallies and the
disease counts, the average divides by the length, and the most common
disease is reduced from the count object keys. -/
def getAnalysisStatistics (history : List AnalysisRecord) : AnalysisStatistics :=
  if history.length = 0 then
    { total := 0, healthy := 0, diseased := 0, lastAnalysis := none,
      mostCommonDisease := none, averageConfidence := 0 }
  else
    let acc := history.foldl statsStep ⟨0, 0, [], 0⟩
    { total := history.length
      healthy := acc.healthy
      diseased := acc.diseased
      lastAnalysis := match history.head? with
        | none => none
        | some r => lastAnalysisOf r
      mostCommonDisease := mostCommon acc.counts
      averageConfidence := acc.totalConfidence / (history.length : ℚ) }

end StorageManager

/-! ## CropAI modules -/

/-- An entry of the disease database (StorageManager.getDiseases or the
getFallbackDiseases lists).  severity is optional because
getDiseaseResult defends against its absence. -/
structure Disease where
  name : String
  description : String := ""
  severity : Option String := none
  symptoms : List String := []
  treatments : List String := []
  prevention : List String := []
deriving DecidableEq, Inhabited

/-! Functions shared verbatim by the CropAI classes of part_004 and
part_006 (simulation path and severity colors). -/
namespace CropAI

/-- getSeverityColor (part_004 lines 222-229, part_006 identical): low,
medium and high have colors; anything else, including a missing
severity, falls to the default. -/
def getSeverityColor (severity : Option String) : String :=
  if severity = some "low" then "#FFC107"
  else if severity = some "medium" then "#FF9800"
  else if severity = some "high" then "#F44336"
  else "#FF9800"

/-- getHealthyResult (part_004 lines 187-204, part_006 lines 122-139):
confidence is 85 + Math.random() * 10 with the draw rconf in [0,1). -/
def getHealthyResult (id : Nat) (date : String) (rconf : ℚ) : AnalysisRecord :=
  { id := id
    date := some date
    status := "healthy"
    confidence := 85 + rconf * 10
    result := "Healthy Crop"
    description := "Your crop appears to be healthy with no visible signs of disease."
    recommendations :=
      ["Continue current care routine",
       "Monitor for any changes in plant health",
       "Maintain proper watering schedule",
       "Ensure adequate nutrition"]
    severity := "none"
    color := "#4CAF50" }

/-- getDiseaseResult (part_004 lines 206-220, part_006 identical):
confidence is 70 + Math.random() * 20 with the draw rconf in [0,1);
severity defaults to medium when the disease supplies none (or the
falsy empty string). -/
def getDiseaseResult (id : Nat) (date : String) (rconf : ℚ) (disease : Disease) : AnalysisRecord :=
  { id := id
    date := some date
    status := "disease_detected"
    confidence := 70 + rconf * 20
    result := disease.name
    description := disease.description
    recommendations := disease.treatments
    severity := jsOr disease.severity "medium"
    color := getSeverityColor disease.severity
    symptoms := some disease.symptoms
    prevention := some disease.prevention }

/-- simulateAnalysis (part_004 lines 170-185, part_006 lines 105-120):
with a missing or empty database the result is healthy; otherwise the
draw rHealthy in [0,1) gives a healthy crop when above 0.3, else a
uniformly drawn database disease via Math.floor(rIdx * length). -/
def simulateAnalysis (diseases : Option (List Disease)) (rHealthy rIdx rconf : ℚ)
    (id : Nat) (date : String) : AnalysisRecord :=
  match diseases with
  | none => getHealthyResult id date rconf
  | some ds =>
    if ds.length = 0 then getHealthyResult id date rconf
    else if rHealthy > 3 / 10 then getHealthyResult id date rconf
    else getDiseaseResult id date rconf (ds.getD (Int.toNat ⌊rIdx * (ds.length : ℚ)⌋) default)

end CropAI

/-! The CropAI variant of src/unnamed/part_004 (Flask backend on
localhost:5000 with the prediction/confidence/treatment payload). -/
namespace CropAI4

/-- The `treatment` object of the part_004 backend payload.  Its
sub-lists are optional; the code spreads `treatments` unguarded in the
diseased branch, so it is kept as a plain list there. -/
structure Treatment4 where
  maintenance : Option (List String) := none
  immediate_actions : Option (List String) := none
  treatments : List String := []
  prevention : Option (List String) := none
deriving DecidableEq, Inhabited

/-- The JSON payload of the part_004 backend: a status field checked
against success, a prediction label, a confidence fraction, and an
optional treatment object. -/
structure BackendResult4 where
  status : String := ""
  prediction : String
  confidence : ℚ
  treatment : Option Treatment4 := none
deriving DecidableEq, Inhabited

/-- processBackendResult (part_004 lines 117-150): converts the [0,1]
backend confidence to a percentage by multiplying with 100, derives
status and label from the prediction, and merges the optional
treatment lists (maintenance for healthy predictions,
immediate_actions plus treatments and the prevention list for diseased
predictions). -/
def processBackendResult (backendResult : BackendResult4) (id : Nat) (date : String) :
    AnalysisRecord :=
  let prediction := backendResult.prediction
  let base : AnalysisRecord :=
    { id := id
      date := some date
      status := if prediction = "healthy" then "healthy" else "disease_detected"
      confidence := backendResult.confidence * 100
      result := if prediction = "healthy" then "Healthy Crop" else "Disease Detected"
      description := if prediction = "healthy" then
          "Your crop appears to be healthy with no visible signs of disease."
        else "The AI has detected signs of disease in your crop."
      recommendations := []
      severity := if prediction = "healthy" then "none" else "medium"
      color := if prediction = "healthy" then "#4CAF50" else "#FF9800"
      fromBackend := some true }
  match backendResult.treatment with
  | none => base
  | some t =>
    if prediction = "healthy" ∧ t.maintenance.isSome then
      { base with recommendations := t.maintenance.getD [] }
    else if prediction = "diseased" ∧ t.immediate_actions.isSome then
      { base with recommendations := t.immediate_actions.getD [] ++ t.treatments,
                  prevention := t.prevention }
    else base

/-- analyzeImage (part_004 lines 59-90): a backend result with status
success is normalized and saved; any other outcome (null result from a
failed call, or a non-success status) falls back to the local
simulation, which saves its record.  The returned pair is (history
after the call, record displayed). -/
def analyzeImage (backendResp : Option BackendResult4) (diseases : Option (List Disease))
    (rHealthy rIdx rconf : ℚ) (id : Nat) (date : String) (now : Nat)
    (history : List AnalysisRecord) : List AnalysisRecord × AnalysisRecord :=
  match backendResp with
  | some result =>
    if result.status = "success" then
      let analysisResult := processBackendResult result id date
      (StorageManager.saveAnalysisResult now analysisResult history,
       StorageManager.stampTimestamp now analysisResult)
    else
      let analysisResult := CropAI.simulateAnalysis diseases rHealthy rIdx rconf id date
      (StorageManager.saveAnalysisResult now analysisResult history,
       StorageManager.stampTimestamp now analysisResult)
  | none =>
    let analysisResult := CropAI.simulateAnalysis diseases rHealthy rIdx rconf id date
    (StorageManager.saveAnalysisResult now analysisResult history,
     StorageManager.stampTimestamp now analysisResult)

end CropAI4

/-! The CropAI variant of src/unnamed/part_005 (same-origin API with
the prediction/confidence/suggestions payload). -/
namespace CropAI5

/-- The `suggestions` object of the part_005 backend payload. -/
structure Suggestions where
  immediate_actions : Option (List String) := none
  treatment_options : Option (List String) := none
  maintenance_tips : Option (List String) := none
  prevention_tips : Option (List String) := none
  severity : Option String := none
  urgency : Option String := none
deriving DecidableEq, Inhabited

/-- The JSON payload of the part_005 backend. -/
structure BackendResult5 where
  status : Option String := none
  prediction : String
  confidence : ℚ
  suggestions : Option Suggestions := none
  model_info : Option String := none
deriving DecidableEq, Inhabited

/-- getSeverityColor (part_005 lines 190-198): as the shared version
but with an explicit green for none. -/
def getSeverityColor (severity : Option String) : String :=
  if severity = some "none" then "#4CAF50"
  else if severity = some "low" then "#FFC107"
  else if severity = some "medium" then "#FF9800"
  else if severity = some "high" then "#F44336"
  else "#FF9800"

/-- getDescriptionForPrediction (part_005 lines 128-134). -/
def getDescriptionForPrediction (prediction : String) : String :=
  if prediction = "healthy" then
    "Your crop appears to be healthy with no visible signs of disease."
  else
    "Disease detected in your crop. Please follow the recommended treatment actions."

/-- convertBackendResult (part_005 lines 98-126): flattens the present
suggestion lists in the order immediate_actions, treatment_options,
maintenance_tips; derives status and label from the prediction; copies
the confidence unchanged; severity is the suggestion severity when
supplied (and non-empty), else none for healthy and medium otherwise. -/
def convertBackendResult (backendResult : BackendResult5) (id : Nat) (date : String) :
    AnalysisRecord :=
  let suggestions := backendResult.suggestions.getD {}
  let recommendations :=
    (suggestions.immediate_actions.getD []) ++ (suggestions.treatment_options.getD [])
      ++ (suggestions.maintenance_tips.getD [])
  let severity := jsOr suggestions.severity
    (if backendResult.prediction = "healthy" then "none" else "medium")
  { id := id
    date := some date
    status := if backendResult.prediction = "healthy" then "healthy" else "disease_detected"
    confidence := backendResult.confidence
    result := if backendResult.prediction = "healthy" then "Healthy Crop" else "Disease Detected"
    description := getDescriptionForPrediction backendResult.prediction
    recommendations := recommendations
    severity := severity
    color := getSeverityColor (some severity)
    backend_used := some true
    model_info := backendResult.model_info }

/-- getHealthyResult (part_005 lines 153-171): as the shared version
plus backend_used false. -/
def getHealthyResult (id : Nat) (date : String) (rconf : ℚ) : AnalysisRecord :=
  { CropAI.getHealthyResult id date rconf with backend_used := some false }

/-- getDiseaseResult (part_005 lines 173-188): as the shared version
plus backend_used false. -/
def getDiseaseResult (id : Nat) (date : String) (rconf : ℚ) (disease : Disease) :
    AnalysisRecord :=
  { CropAI.getDiseaseResult id date rconf disease with backend_used := some false }

/-- simulateAnalysis (part_005 lines 136-151): identical logic to the
shared version, building the part_005 records. -/
def simulateAnalysis (diseases : Option (List Disease)) (rHealthy rIdx rconf : ℚ)
    (id : Nat) (date : String) : AnalysisRecord :=
  match diseases with
  | none => getHealthyResult id date rconf
  | some ds =>
    if ds.length = 0 then getHealthyResult id date rconf
    else if rHealthy > 3 / 10 then getHealthyResult id date rconf
    else getDiseaseResult id date rconf (ds.getD (Int.toNat ⌊rIdx * (ds.length : ℚ)⌋) default)

end CropAI5

/-! The CropAI variant of src/unnamed/part_006, whose backend returns a
payload already shaped like an AnalysisRecord; analyzeImage stores it
raw with metadata attached, or falls back to the local simulation. -/
namespace CropAI6

/-- The observable outcome of the fetch against the part_006 backend:
a network error, or an HTTP response with its ok flag and its parsed
JSON body (none when response.json() throws on a malformed body). -/
inductive RemoteResponse where
  | netError
  | httpResponse (ok : Bool) (body : Option AnalysisRecord)
deriving DecidableEq

/-- analyzeWithBackend (part_006 lines 49-79): every failure (network
error, non-ok status, malformed JSON) is caught and returns null; a
success returns the parsed record with id, date and source backend
attached. -/
def analyzeWithBackend (resp : RemoteResponse) (id : Nat) (date : String) :
    Option AnalysisRecord :=
  match resp with
  | .netError => none
  | .httpResponse ok body =>
    if ok then
      match body with
      | some result => some { result with id := id, date := some date, source := some "backend" }
      | none => none
    else none

/-- analyzeImage (part_006 lines 19-47) together with
analyzeImageLocally (lines 81-103): a non-null backend result is saved
as-is; otherwise the simulated record, tagged with source local and the
explanatory note, is saved.  The returned pair is (history after the
call, record displayed). -/
def analyzeImage (resp : RemoteResponse) (diseases : Option (List Disease))
    (rHealthy rIdx rconf : ℚ) (id : Nat) (date : String) (now : Nat)
    (history : List AnalysisRecord) : List AnalysisRecord × AnalysisRecord :=
  match analyzeWithBackend resp id date with
  | some result =>
    (StorageManager.saveAnalysisResult now result history,
     StorageManager.stampTimestamp now result)
  | none =>
    let analysisResult :=
      { CropAI.simulateAnalysis diseases rHealthy rIdx rconf id date with
          source := some "local", note := some "Analyzed locally - backend unavailable" }
    (StorageManager.saveAnalysisResult now analysisResult history,
     StorageManager.stampTimestamp now analysisResult)

end CropAI6

/-! ## Auxiliary definitions used by the theorems -/

/-- Iterated appending to the history: the effect of a sequence of
saveAnalysisResult calls, earliest first. -/
def appendAll (now : Nat) (results : List AnalysisRecord)
    (history : List AnalysisRecord) : List AnalysisRecord :=
  results.foldl (fun acc r => StorageManager.saveAnalysisResult now r acc) history

/-- The comparator step of the reduce in getAnalysisStatistics: keep
the left value only when its count is strictly greater. -/
def pickMax (f : String → Nat) (a b : String) : String :=
  if f a > f b then a else b

/-- Reference function: the element of the list attaining the maximal
value of f at the latest position (later elements win ties). -/
def lastArgmax (f : String → Nat) : List String → Option String
  | [] => none
  | a :: ks =>
    match lastArgmax f ks with
    | none => some a
    | some w => some (if f a > f w then a else w)

/-- Reference function: the distinct elements of a list in order of
their first occurrence. -/
def firstOccurrences (L : List String) : List String :=
  L.foldl (fun acc k => if k ∈ acc then acc else acc ++ [k]) []

/-- The sequence, in scan order, of result labels that the statistics
loop counts: labels of records whose status is not healthy and whose
result is a non-empty string other than "Healthy Crop". -/
def nonHealthyLabels (history : List AnalysisRecord) : List String :=
  (history.filter fun item =>
      !(item.status == "healthy") && !(item.result == "") && !(item.result == "Healthy Crop")).map
    fun item => item.result

/-- Reference function for the corrected C6: the counted label with the
maximal number of occurrences, ties resolved towards the label whose
first occurrence is latest in the scan. -/
def mostCommonLastTie (L : List String) : Option String :=
  lastArgmax (fun k => L.count k) (firstOccurrences L)

/-- The confidence contract of the local simulation path: confidence
within [85,95] for healthy records and within [70,90] for
disease-detected records. -/
def confidenceInRange (r : AnalysisRecord) : Prop :=
  (r.status = "healthy" → 85 ≤ r.confidence ∧ r.confidence ≤ 95)
  ∧ (r.status = "disease_detected" → 70 ≤ r.confidence ∧ r.confidence ≤ 90)

/-- The claimed record invariant: severity is none exactly when the
status is healthy. -/
def severityMatchesStatus (r : AnalysisRecord) : Prop :=
  r.severity = "none" ↔ r.status = "healthy"

/-- A concrete healthy record used by witnesses. -/
def sampleHealthy : AnalysisRecord :=
  { id := 1, status := "healthy", confidence := 90, result := "Healthy Crop",
    severity := "none" }

/-- A concrete diseased record with a given label, used by witnesses
and counterexamples. -/
def sampleDisease (id : Nat) (label : String) : AnalysisRecord :=
  { id := id, status := "disease_detected", confidence := 80, result := label,
    severity := "medium" }

/-- A two-record history whose two disease labels are tied at one
occurrence each; the left-to-right scan encounters the Tomato label
first. -/
def tieHistory : List AnalysisRecord :=
  [sampleDisease 1 "Tomato Late Blight", sampleDisease 2 "Maize Streak Virus"]

/-- A concrete storage state used by witnesses. -/
def initState : StorageManager.StorageState :=
  { analysisHistory := some [], userPreferences := some StorageManager.defaultPreferences,
    cache := some [] }

/-! ## Helper lemmas about the association-list object model -/

theorem lookupKey_nil {α : Type} (k : String) : lookupKey ([] : List (String × α)) k = none :=
  rfl

theorem lookupKey_cons {α : Type} (p : String × α) (m : List (String × α)) (k : String) :
    lookupKey (p :: m) k = if p.1 = k then some p.2 else lookupKey m k := by
  by_cases hp : p.1 = k <;> simp [lookupKey, List.find?_cons, hp]

theorem lookupKey_mapReplace_self {α : Type} (m : List (String × α)) (k : String) (v : α)
    (h : (m.any fun p => p.1 == k) = true) :
    lookupKey (m.map fun p => if p.1 == k then (k, v) else p) k = some v := by
  induction m with
  | nil => simp at h
  | cons p m ih =>
    simp only [beq_iff_eq] at ih
    by_cases hp : p.1 = k
    · simp [hp, lookupKey_cons]
    · rw [List.any_cons, Bool.or_eq_true] at h
      have hm := h.resolve_left (by simpa using hp)
      simp [lookupKey_cons, hp, ih hm]

theorem lookupKey_mapReplace_other {α : Type} (m : List (String × α)) (k k' : String) (v : α)
    (h : k' ≠ k) :
    lookupKey (m.map fun p => if p.1 == k then (k, v) else p) k' = lookupKey m k' := by
  induction m with
  | nil => rfl
  | cons p m ih =>
    simp only [beq_iff_eq] at ih
    by_cases hp : p.1 = k
    · have h1 : ¬ (k = k') := fun hk => h hk.symm
      have h2 : ¬ (p.1 = k') := by rw [hp]; exact h1
      simp [lookupKey_cons, hp, h1, h2, ih]
    · by_cases hp' : p.1 = k'
      · simp [lookupKey_cons, hp, hp', h]
      · simp [lookupKey_cons, hp, hp', ih]

theorem lookupKey_appendOne_self {α : Type} (m : List (String × α)) (k : String) (v : α)
    (h : (m.any fun p => p.1 == k) = false) :
    lookupKey (m ++ [(k, v)]) k = some v := by
  induction m with
  | nil => simp [lookupKey_cons]
  | cons p m ih =>
    rw [List.any_cons, Bool.or_eq_false_iff] at h
    have hp : ¬ p.1 = k := by simpa using h.1
    simp [lookupKey_cons, hp, ih h.2]

theorem lookupKey_appendOne_other {α : Type} (m : List (String × α)) (k k' : String) (v : α)
    (h : k' ≠ k) :
    lookupKey (m ++ [(k, v)]) k' = lookupKey m k' := by
  induction m with
  | nil =>
    have h1 : ¬ (k = k') := fun hk => h hk.symm
    simp [lookupKey_cons, lookupKey_nil, h1]
  | cons p m ih =>
    by_cases hp' : p.1 = k'
    · simp [lookupKey_cons, hp']
    · simp [lookupKey_cons, hp', ih]

theorem lookupKey_setKey_self {α : Type} (m : List (String × α)) (k : String) (v : α) :
    lookupKey (setKey m k v) k = some v := by
  unfold setKey
  by_cases hm : (m.any fun p => p.1 == k) = true
  · simpa [hm] using lookupKey_mapReplace_self m k v hm
  · simpa [hm] using lookupKey_appendOne_self m k v (Bool.eq_false_iff.mpr hm)

theorem lookupKey_setKey_other {α : Type} (m : List (String × α)) (k k' : String) (v : α)
    (h : k' ≠ k) : lookupKey (setKey m k v) k' = lookupKey m k' := by
  unfold setKey
  by_cases hm : (m.any fun p => p.1 == k) = true
  · simpa [hm] using lookupKey_mapReplace_other m k k' v h
  · simpa [hm] using lookupKey_appendOne_other m k k' v h

theorem lookupKey_removeKey_self {α : Type} (m : List (String × α)) (k : String) :
    lookupKey (removeKey m k) k = none := by
  induction m with
  | nil => rfl
  | cons p m ih =>
    by_cases hp : p.1 = k
    · simpa [removeKey, hp] using ih
    · simpa [removeKey, lookupKey_cons, hp] using ih

/-! ## Claims -/

/-- C9: when the history is empty, getAnalysisStatistics returns
total 0, averageConfidence 0 and an absent mostCommonDisease (and zero
tallies and no last analysis), via the early return that precedes the
division by the length and the head access. -/
theorem getAnalysisStatistics_empty :
    StorageManager.getAnalysisStatistics [] =
      { total := 0, healthy := 0, diseased := 0, lastAnalysis := none,
        mostCommonDisease := none, averageConfidence := 0 } := rfl

/-- C8: deleteAnalysisItem is idempotent: removing an id absent from
the history leaves the history unchanged (and the operation reports
success, being modelled as total), and removing the same id twice
equals removing it once. -/
theorem deleteAnalysisItem_idempotent (id : Nat) (history : List AnalysisRecord) :
    ((∀ item ∈ history, item.id ≠ id) →
        StorageManager.deleteAnalysisItem id history = history)
    ∧ StorageManager.deleteAnalysisItem id (StorageManager.deleteAnalysisItem id history)
        = StorageManager.deleteAnalysisItem id history := by
  constructor
  · intro h
    apply List.filter_eq_self.mpr
    intro item hmem
    simpa using h item hmem
  · simp [StorageManager.deleteAnalysisItem, List.filter_filter]

/-- Witness for C8 at a concrete input: id 2 is absent from the
one-record history, and deletion leaves it unchanged. -/
theorem deleteAnalysisItem_idempotent_witness :
    StorageManager.deleteAnalysisItem 2 [sampleHealthy] = [sampleHealthy] :=
  (deleteAnalysisItem_idempotent 2 [sampleHealthy]).1 (by decide)

/-- C4 counterexample: at the instant now = expiresAt (entry stored at
time 0 with a 60-minute TTL, read at exactly 3600000 ms) getCachedData
still returns the data, although the claim says the entry is treated as
absent once the current time is not strictly less than expiresAt. -/
theorem getCachedData_expiry_boundary_counterexample :
    (StorageManager.getCachedData (StorageManager.setCachedData [] "k" "v" 60 0) "k"
        3600000).1 = some "v"
    ∧ ¬ (3600000 < 0 + 60 * 60 * 1000) := by
  constructor
  · rfl
  · decide

/-- C4 amended: a set entry has expiresAt = storedAt + T minutes; get
returns it exactly while now ≤ expiresAt (leaving the cache unchanged),
and once now exceeds expiresAt it returns nothing and proactively
removes the entry from the store. -/
theorem getCachedData_ttl_amended (cache : List (String × StorageManager.CacheEntry))
    (key data : String) (expireInMinutes now0 now : Nat) :
    lookupKey (StorageManager.setCachedData cache key data expireInMinutes now0) key
        = some ⟨data, now0, now0 + expireInMinutes * 60 * 1000⟩
    ∧ (now ≤ now0 + expireInMinutes * 60 * 1000 →
        (StorageManager.getCachedData
            (StorageManager.setCachedData cache key data expireInMinutes now0) key now).1
          = some data
        ∧ (StorageManager.getCachedData
            (StorageManager.setCachedData cache key data expireInMinutes now0) key now).2
          = StorageManager.setCachedData cache key data expireInMinutes now0)
    ∧ (now0 + expireInMinutes * 60 * 1000 < now →
        (StorageManager.getCachedData
            (StorageManager.setCachedData cache key data expireInMinutes now0) key now).1
          = none
        ∧ lookupKey (StorageManager.getCachedData
            (StorageManager.setCachedData cache key data expireInMinutes now0) key now).2 key
          = none) := by
  have hl : lookupKey (StorageManager.setCachedData cache key data expireInMinutes now0) key
      = some ⟨data, now0, now0 + expireInMinutes * 60 * 1000⟩ :=
    lookupKey_setKey_self cache key _
  refine ⟨hl, ?_, ?_⟩
  · intro hle
    unfold StorageManager.getCachedData
    rw [hl]
    simp [Nat.not_lt.mpr hle]
  · intro hgt
    unfold StorageManager.getCachedData
    rw [hl]
    simp only [gt_iff_lt, hgt, if_true]
    exact ⟨trivial, lookupKey_removeKey_self _ key⟩

/-- Witness for C4 at a concrete input: an entry with a 1-minute TTL
stored at time 0 is still retrievable at exactly 60000 ms. -/
theorem getCachedData_ttl_witness :
    (StorageManager.getCachedData (StorageManager.setCachedData [] "k" "v" 1 0) "k"
        60000).1 = some "v" :=
  ((getCachedData_ttl_amended [] "k" "v" 1 0 60000).2.1 (by decide)).1

/-- C10: setUserPreference stores the given value under the given key,
leaves every other preference key unchanged, and does not touch the
analysis-history and cache namespaces. -/
theorem setUserPreference_frame (s : StorageManager.StorageState) (key : String)
    (value : StorageManager.PrefValue) :
    lookupKey (StorageManager.getUserPreferences
        (StorageManager.setUserPreference s key value)) key = some value
    ∧ (∀ k', k' ≠ key →
        lookupKey (StorageManager.getUserPreferences
            (StorageManager.setUserPreference s key value)) k'
          = lookupKey (StorageManager.getUserPreferences s) k')
    ∧ (StorageManager.setUserPreference s key value).analysisHistory = s.analysisHistory
    ∧ (StorageManager.setUserPreference s key value).cache = s.cache := by
  refine ⟨?_, ?_, rfl, rfl⟩
  · show lookupKey (setKey (StorageManager.getUserPreferences s) key value) key = some value
    exact lookupKey_setKey_self _ key value
  · intro k' hk'
    show lookupKey (setKey (StorageManager.getUserPreferences s) key value) k'
      = lookupKey (StorageManager.getUserPreferences s) k'
    exact lookupKey_setKey_other _ key k' value hk'

/-- Witness for C10 at a concrete input: setting the language leaves
the location preference unchanged. -/
theorem setUserPreference_frame_witness :
    lookupKey (StorageManager.getUserPreferences
        (StorageManager.setUserPreference initState "language" (.str "sw"))) "location"
      = lookupKey (StorageManager.getUserPreferences initState) "location" :=
  (setUserPreference_frame initState "language" (.str "sw")).2.1 "location" (by decide)

/-- The healthy simulation record has confidence 85 + rconf * 10, which
lies in [85,95] for a draw in [0,1). -/
theorem confidenceInRange_getHealthyResult (i : Nat) (d : String) (rconf : ℚ)
    (h0 : 0 ≤ rconf) (h1 : rconf < 1) :
    confidenceInRange (CropAI.getHealthyResult i d rconf) := by
  constructor
  · intro _
    constructor
    · show (85 : ℚ) ≤ 85 + rconf * 10
      nlinarith
    · show (85 : ℚ) + rconf * 10 ≤ 95
      nlinarith
  · intro hst
    simp [CropAI.getHealthyResult] at hst

/-- The diseased simulation record has confidence 70 + rconf * 20,
which lies in [70,90] for a draw in [0,1). -/
theorem confidenceInRange_getDiseaseResult (i : Nat) (d : String) (rconf : ℚ)
    (ds : Disease) (h0 : 0 ≤ rconf) (h1 : rconf < 1) :
    confidenceInRange (CropAI.getDiseaseResult i d rconf ds) := by
  constructor
  · intro hst
    simp [CropAI.getDiseaseResult] at hst
  · intro _
    constructor
    · show (70 : ℚ) ≤ 70 + rconf * 20
      nlinarith
    · show (70 : ℚ) + rconf * 20 ≤ 90
      nlinarith

/-- C7: every record produced by the local simulation paths (the shared
simulateAnalysis of part_004/part_006 and the part_005 variant)
satisfies the confidence ranges: within [85,95] when the status is
healthy and within [70,90] when it is disease_detected, for any
confidence draw rconf in [0,1). -/
theorem simulation_confidence_range (diseases : Option (List Disease))
    (rHealthy rIdx rconf : ℚ) (id : Nat) (date : String)
    (h0 : 0 ≤ rconf) (h1 : rconf < 1) :
    confidenceInRange (CropAI.simulateAnalysis diseases rHealthy rIdx rconf id date)
    ∧ confidenceInRange (CropAI5.simulateAnalysis diseases rHealthy rIdx rconf id date) := by
  have hH := confidenceInRange_getHealthyResult id date rconf h0 h1
  have hD := fun ds => confidenceInRange_getDiseaseResult id date rconf ds h0 h1
  have hH5 : confidenceInRange (CropAI5.getHealthyResult id date rconf) := hH
  have hD5 : ∀ ds, confidenceInRange (CropAI5.getDiseaseResult id date rconf ds) := hD
  constructor
  · cases diseases with
    | none => exact hH
    | some ds =>
      by_cases hlen : ds.length = 0
      · simpa [CropAI.simulateAnalysis, hlen] using hH
      · by_cases hr : rHealthy > 3 / 10
        · simpa [CropAI.simulateAnalysis, hlen, hr] using hH
        · simpa [CropAI.simulateAnalysis, hlen, hr] using hD _
  · cases diseases with
    | none => exact hH5
    | some ds =>
      by_cases hlen : ds.length = 0
      · simpa [CropAI5.simulateAnalysis, hlen] using hH5
      · by_cases hr : rHealthy > 3 / 10
        · simpa [CropAI5.simulateAnalysis, hlen, hr] using hH5
        · simpa [CropAI5.simulateAnalysis, hlen, hr] using hD5 _

/-- Witness for C7 at a concrete input: with an empty database and draw
one half, the simulated record is healthy with confidence 90, inside
[85,95]. -/
theorem simulation_confidence_range_witness :
    85 ≤ (CropAI.simulateAnalysis none 0 0 (1 / 2) 1 "d").confidence
    ∧ (CropAI.simulateAnalysis none 0 0 (1 / 2) 1 "d").confidence ≤ 95 :=
  (simulation_confidence_range none 0 0 (1 / 2) 1 "d" (by norm_num) (by norm_num)).1.1 rfl

/-- Truncating the right summand of an append before taking does not
change the take. -/
theorem take_append_take {α : Type} (n : Nat) (l m : List α) :
    (l ++ m.take n).take n = (l ++ m).take n := by
  rw [List.take_append_eq_append_take, List.take_append_eq_append_take, List.take_take,
    min_eq_left (Nat.sub_le n l.length)]

/-- Folding saveAnalysisResult over a list of results, starting from a
history within the cap, yields the reversed stamped results prepended
to the old history, truncated to the cap. -/
theorem appendAll_eq (now : Nat) (results : List AnalysisRecord) :
    ∀ history : List AnalysisRecord, history.length ≤ 50 →
      appendAll now results history
        = ((results.map (StorageManager.stampTimestamp now)).reverse ++ history).take 50 := by
  induction results with
  | nil =>
    intro h hh
    simp only [appendAll, List.foldl_nil, List.map_nil, List.reverse_nil, List.nil_append]
    exact (List.take_of_length_le hh).symm
  | cons r rs ih =>
    intro h hh
    have hstep : appendAll now (r :: rs) h
        = appendAll now rs ((StorageManager.stampTimestamp now r :: h).take 50) := rfl
    rw [hstep, ih _ (List.length_take_le 50 _),
      take_append_take 50 ((rs.map (StorageManager.stampTimestamp now)).reverse)
        (StorageManager.stampTimestamp now r :: h)]
    simp [List.reverse_cons, List.append_assoc]

/-- C5: after appending more than 50 records to a history within the
cap, the stored history is exactly the most recent 50 stamped records
in newest-first order; its length is exactly 50; moreover every single
append inserts at the head and leaves at most 50 records. -/
theorem history_cap_newest_first (now : Nat) (results history : List AnalysisRecord)
    (hh : history.length ≤ 50) (hN : 50 < results.length) :
    appendAll now results history
        = ((results.map (StorageManager.stampTimestamp now)).reverse).take 50
    ∧ (appendAll now results history).length = 50
    ∧ (∀ (r : AnalysisRecord) (h' : List AnalysisRecord),
        (StorageManager.saveAnalysisResult now r h').length ≤ 50
        ∧ (StorageManager.saveAnalysisResult now r h').head?
            = some (StorageManager.stampTimestamp now r)) := by
  have hrev : 50 ≤ ((results.map (StorageManager.stampTimestamp now)).reverse).length := by
    simp only [List.length_reverse, List.length_map]
    omega
  have h1 : appendAll now results history
      = ((results.map (StorageManager.stampTimestamp now)).reverse).take 50 := by
    rw [appendAll_eq now results history hh, List.take_append_of_le_length hrev]
  refine ⟨h1, ?_, ?_⟩
  · rw [h1, List.length_take]
    omega
  · intro r h'
    exact ⟨List.length_take_le 50 _, rfl⟩

/-- Witness for C5 at a concrete input: 51 appends onto the empty
history leave exactly 50 records. -/
theorem history_cap_newest_first_witness :
    (appendAll 7 (List.replicate 51 sampleHealthy) []).length = 50 :=
  (history_cap_newest_first 7 (List.replicate 51 sampleHealthy) [] (by decide)
    (by simp)).2.1

/-- C2 counterexample: the part_005 normalizer convertBackendResult,
given the raw payload with prediction "diseased" and fractional
confidence 0.82, copies the confidence unchanged: the record carries
0.82, not the percentage 82 that the claim requires of every
normalization. -/
theorem convertBackendResult_confidence_counterexample :
    (CropAI5.convertBackendResult
        { prediction := "diseased", confidence := 82 / 100 } 1 "d").confidence = 82 / 100
    ∧ ¬ ((82 : ℚ) / 100 = 82)
    ∧ (CropAI5.convertBackendResult
        { prediction := "diseased", confidence := 82 / 100 } 1 "d").status
      = "disease_detected" := by
  refine ⟨rfl, by norm_num, rfl⟩

/-- C2 amended: the part_004 normalizer processBackendResult multiplies
the backend confidence by 100 and maps every non-healthy prediction to
status disease_detected — in particular confidence 0.82 with
prediction "diseased" yields confidence 82 and status disease_detected
— while the part_005 normalizer convertBackendResult maps the status
identically but copies the confidence value unchanged. -/
theorem normalizers_confidence_amended (b4 : CropAI4.BackendResult4)
    (b5 : CropAI5.BackendResult5) (id : Nat) (date : String) :
    (CropAI4.processBackendResult b4 id date).confidence = b4.confidence * 100
    ∧ (b4.prediction ≠ "healthy" →
        (CropAI4.processBackendResult b4 id date).status = "disease_detected")
    ∧ (CropAI5.convertBackendResult b5 id date).confidence = b5.confidence
    ∧ (b5.prediction ≠ "healthy" →
        (CropAI5.convertBackendResult b5 id date).status = "disease_detected")
    ∧ (CropAI4.processBackendResult
        { status := "success", prediction := "diseased", confidence := 82 / 100 } 1
        "d").confidence = 82
    ∧ (CropAI4.processBackendResult
        { status := "success", prediction := "diseased", confidence := 82 / 100 } 1
        "d").status = "disease_detected" := by
  refine ⟨?_, ?_, rfl, ?_, by norm_num [CropAI4.processBackendResult], rfl⟩
  · simp only [CropAI4.processBackendResult]
    cases b4.treatment with
    | none => rfl
    | some t => dsimp only; split_ifs <;> rfl
  · intro hp
    simp only [CropAI4.processBackendResult]
    cases b4.treatment with
    | none => simp [hp]
    | some t => dsimp only; split_ifs <;> simp [hp]
  · intro hp
    simp only [CropAI5.convertBackendResult]
    simp [hp]

/-- Witness for C2 at a concrete input: the part_004 normalization of
the diseased payload indeed reports status disease_detected. -/
theorem normalizers_confidence_amended_witness :
    (CropAI4.processBackendResult
        { status := "success", prediction := "diseased", confidence := 82 / 100 } 1
        "d").status = "disease_detected" :=
  (normalizers_confidence_amended
      { status := "success", prediction := "diseased", confidence := 82 / 100 }
      { prediction := "diseased", confidence := 82 } 1 "d").2.1 (by decide)

/-- C3 counterexample: convertBackendResult applied to a payload with a
healthy prediction and a backend-supplied severity "high" produces a
record with status healthy and severity high, so the claimed
equivalence severity = none iff status = healthy fails for a record
produced by a normalization path. -/
theorem severity_none_iff_healthy_counterexample :
    (CropAI5.convertBackendResult
        { prediction := "healthy", confidence := 9 / 10,
          suggestions := some { severity := some "high" } } 1 "d").status = "healthy"
    ∧ (CropAI5.convertBackendResult
        { prediction := "healthy", confidence := 9 / 10,
          suggestions := some { severity := some "high" } } 1 "d").severity = "high"
    ∧ ¬ severityMatchesStatus (CropAI5.convertBackendResult
        { prediction := "healthy", confidence := 9 / 10,
          suggestions := some { severity := some "high" } } 1 "d") := by
  refine ⟨rfl, rfl, fun h => ?_⟩
  have hs : (CropAI5.convertBackendResult
      { prediction := "healthy", confidence := 9 / 10,
        suggestions := some { severity := some "high" } } 1 "d").severity = "none" :=
    h.mpr rfl
  simp [CropAI5.convertBackendResult, jsOr] at hs

/-- The healthy simulation record has severity none and status healthy. -/
theorem severityMatchesStatus_getHealthyResult (i : Nat) (d : String) (rconf : ℚ) :
    severityMatchesStatus (CropAI.getHealthyResult i d rconf) :=
  ⟨fun _ => rfl, fun _ => rfl⟩

/-- The diseased simulation record of a disease whose severity is not
the string none has a severity other than none and a status other than
healthy. -/
theorem severityMatchesStatus_getDiseaseResult (i : Nat) (d : String) (rconf : ℚ)
    (ds : Disease) (h : ds.severity ≠ some "none") :
    severityMatchesStatus (CropAI.getDiseaseResult i d rconf ds) := by
  have hs : jsOr ds.severity "medium" ≠ "none" := by
    cases hsev : ds.severity with
    | none => simp [jsOr]
    | some s =>
      by_cases hse : s = ""
      · simp [jsOr, hse]
      · have : s ≠ "none" := fun hs' => h (by rw [hsev, hs'])
        simp [jsOr, hse, this]
  constructor
  · intro hnone
    exact absurd hnone hs
  · intro hstat
    simp [CropAI.getDiseaseResult] at hstat

/-- C3 amended: severity = none iff status = healthy holds for every
record of the simulation paths provided no database disease carries the
severity string none (true of both built-in databases), for every
record of the part_004 normalizer processBackendResult, and for every
record of the part_005 normalizer convertBackendResult whose payload
supplies no severity (or the falsy empty severity); a payload-supplied
severity overrides the correspondence unconditionally. -/
theorem severity_none_iff_healthy_amended :
    (∀ (diseases : Option (List Disease)) (rHealthy rIdx rconf : ℚ) (id : Nat) (date : String),
      (∀ ds ∈ diseases.getD [], ds.severity ≠ some "none") →
        severityMatchesStatus (CropAI.simulateAnalysis diseases rHealthy rIdx rconf id date)
        ∧ severityMatchesStatus (CropAI5.simulateAnalysis diseases rHealthy rIdx rconf id date))
    ∧ (∀ (b4 : CropAI4.BackendResult4) (id : Nat) (date : String),
        severityMatchesStatus (CropAI4.processBackendResult b4 id date))
    ∧ (∀ (b5 : CropAI5.BackendResult5) (id : Nat) (date : String),
        (b5.suggestions.getD {}).severity = none ∨ (b5.suggestions.getD {}).severity = some "" →
          severityMatchesStatus (CropAI5.convertBackendResult b5 id date)) := by
  refine ⟨?_, ?_, ?_⟩
  · intro diseases rHealthy rIdx rconf id date h
    have hH := severityMatchesStatus_getHealthyResult id date rconf
    have hH5 : severityMatchesStatus (CropAI5.getHealthyResult id date rconf) := hH
    have hD : ∀ ds : List Disease, diseases = some ds →
        severityMatchesStatus (CropAI.getDiseaseResult id date rconf
          (ds.getD (Int.toNat ⌊rIdx * (ds.length : ℚ)⌋) default)) := by
      intro ds hds
      by_cases hidx : Int.toNat ⌊rIdx * (ds.length : ℚ)⌋ < ds.length
      · apply severityMatchesStatus_getDiseaseResult
        apply h
        rw [hds]
        simp only [Option.getD_some]
        rw [List.getD_eq_getElem ds default hidx]
        exact List.getElem_mem hidx
      · rw [List.getD_eq_default ds default (Nat.le_of_not_lt hidx)]
        apply severityMatchesStatus_getDiseaseResult
        simp [default]
    constructor
    · cases hds : diseases with
      | none => exact hH
      | some ds =>
        by_cases hlen : ds.length = 0
        · simpa [CropAI.simulateAnalysis, hlen] using hH
        · by_cases hr : rHealthy > 3 / 10
          · simpa [CropAI.simulateAnalysis, hlen, hr] using hH
          · simpa [CropAI.simulateAnalysis, hlen, hr] using hD ds hds
    · cases hds : diseases with
      | none => exact hH5
      | some ds =>
        by_cases hlen : ds.length = 0
        · simpa [CropAI5.simulateAnalysis, hlen] using hH5
        · by_cases hr : rHealthy > 3 / 10
          · simpa [CropAI5.simulateAnalysis, hlen, hr] using hH5
          · have h5 : severityMatchesStatus (CropAI5.getDiseaseResult id date rconf
                (ds.getD (Int.toNat ⌊rIdx * (ds.length : ℚ)⌋) default)) := hD ds hds
            simpa [CropAI5.simulateAnalysis, hlen, hr] using h5
  · intro b4 id date
    simp only [CropAI4.processBackendResult]
    by_cases hp : b4.prediction = "healthy"
    · cases b4.treatment with
      | none => simp [severityMatchesStatus, hp]
      | some t => dsimp only; split_ifs <;> simp [severityMatchesStatus, hp]
    · cases b4.treatment with
      | none => simp [severityMatchesStatus, hp]
      | some t => dsimp only; split_ifs <;> simp [severityMatchesStatus, hp]
  · intro b5 id date hsev
    by_cases hp : b5.prediction = "healthy" <;>
      rcases hsev with hs | hs <;>
        simp [severityMatchesStatus, CropAI5.convertBackendResult, jsOr, hp, hs]

/-- Witness for C3 at a concrete input: the simulation over the empty
database (which vacuously has no severity none entry) satisfies the
equivalence. -/
theorem severity_none_iff_healthy_witness :
    severityMatchesStatus (CropAI.simulateAnalysis (some []) 0 0 0 1 "d") :=
  (severity_none_iff_healthy_amended.1 (some []) 0 0 0 1 "d" (by decide)).1

/-- Stamping the timestamp never changes the source tag. -/
theorem stampTimestamp_source (now : Nat) (r : AnalysisRecord) :
    (StorageManager.stampTimestamp now r).source = r.source := by
  unfold StorageManager.stampTimestamp
  split_ifs <;> rfl

/-- One saveAnalysisResult call prepends the stamped record and keeps
at most the first 49 old records. -/
theorem saveAnalysisResult_cons (now : Nat) (r : AnalysisRecord)
    (history : List AnalysisRecord) :
    StorageManager.saveAnalysisResult now r history
      = StorageManager.stampTimestamp now r :: history.take 49 := rfl

/-- C1 counterexample: with the history already at the cap of 50, a
failed remote attempt still persists exactly one record, but the
history length stays 50 instead of increasing by exactly 1 as the
claim demands of every invocation. -/
theorem analyzeImage_at_cap_counterexample :
    (CropAI6.analyzeImage .netError none 0 0 0 1 "d" 5
        (List.replicate 50 sampleHealthy)).1.length = 50
    ∧ (List.replicate 50 sampleHealthy).length = 50
    ∧ ¬ ((50 : Nat) = 50 + 1) := by
  refine ⟨?_, by simp, by decide⟩
  have h1 : (CropAI6.analyzeImage .netError none 0 0 0 1 "d" 5
      (List.replicate 50 sampleHealthy)).1
        = (CropAI6.analyzeImage .netError none 0 0 0 1 "d" 5
            (List.replicate 50 sampleHealthy)).2
          :: (List.replicate 50 sampleHealthy).take 49 := by
    exact saveAnalysisResult_cons 5 _ _
  rw [h1]
  simp

/-- C1 amended: every invocation of the part_006 orchestrator persists
exactly one record — the new history is the stamped produced record at
the head followed by the old history truncated to 49 — so the length
grows by exactly 1 whenever the history was below the cap of 50 (and
stays at 50 at the cap); the persisted record is the saved backend
result when the remote attempt succeeded and the locally simulated
record tagged source local on any remote failure; the part_004
orchestrator likewise persists exactly one record per invocation. -/
theorem analyzeImage_persists_one_record (resp : CropAI6.RemoteResponse)
    (backendResp : Option CropAI4.BackendResult4) (diseases : Option (List Disease))
    (rHealthy rIdx rconf : ℚ) (id : Nat) (date : String) (now : Nat)
    (history : List AnalysisRecord) :
    (CropAI6.analyzeImage resp diseases rHealthy rIdx rconf id date now history).1
        = (CropAI6.analyzeImage resp diseases rHealthy rIdx rconf id date now history).2
            :: history.take 49
    ∧ (history.length < 50 →
        (CropAI6.analyzeImage resp diseases rHealthy rIdx rconf id date now history).1.length
          = history.length + 1)
    ∧ (CropAI6.analyzeWithBackend resp id date = none →
        (CropAI6.analyzeImage resp diseases rHealthy rIdx rconf id date now history).2.source
          = some "local")
    ∧ (∀ r, CropAI6.analyzeWithBackend resp id date = some r →
        (CropAI6.analyzeImage resp diseases rHealthy rIdx rconf id date now history).2
          = StorageManager.stampTimestamp now r)
    ∧ (CropAI4.analyzeImage backendResp diseases rHealthy rIdx rconf id date now history).1
        = (CropAI4.analyzeImage backendResp diseases rHealthy rIdx rconf id date now history).2
            :: history.take 49 := by
  have hcons : (CropAI6.analyzeImage resp diseases rHealthy rIdx rconf id date now history).1
      = (CropAI6.analyzeImage resp diseases rHealthy rIdx rconf id date now history).2
        :: history.take 49 := by
    cases hb : CropAI6.analyzeWithBackend resp id date with
    | none =>
      simp only [CropAI6.analyzeImage, hb]
      exact saveAnalysisResult_cons now _ history
    | some r =>
      simp only [CropAI6.analyzeImage, hb]
      exact saveAnalysisResult_cons now r history
  refine ⟨hcons, ?_, ?_, ?_, ?_⟩
  · intro hlen
    rw [hcons]
    simp only [List.length_cons, List.length_take]
    omega
  · intro hb
    simp only [CropAI6.analyzeImage, hb]
    rw [stampTimestamp_source]
  · intro r hb
    simp only [CropAI6.analyzeImage, hb]
  · cases backendResp with
    | none =>
      simp only [CropAI4.analyzeImage]
      exact saveAnalysisResult_cons now _ history
    | some result =>
      by_cases hs : result.status = "success"
      · simp only [CropAI4.analyzeImage, hs, if_true]
        exact saveAnalysisResult_cons now _ history
      · simp only [CropAI4.analyzeImage, hs, if_false]
        exact saveAnalysisResult_cons now _ history

/-- Witness for C1 at a concrete input: a failed remote attempt over
the empty history leaves exactly one record. -/
theorem analyzeImage_persists_one_record_witness :
    (CropAI6.analyzeImage .netError none 0 0 0 1 "d" 7 []).1.length
      = ([] : List AnalysisRecord).length + 1 :=
  (analyzeImage_persists_one_record .netError none none 0 0 0 1 "d" 7 []).2.1 (by decide)

/-! ## The reduce in getAnalysisStatistics picks the last maximum -/

/-- The reduce comparator is associative (it selects the maximum by f
with a consistent right bias on ties). -/
theorem pickMax_assoc (f : String → Nat) (a b c : String) :
    pickMax f (pickMax f a b) c = pickMax f a (pickMax f b c) := by
  unfold pickMax
  split_ifs <;> first | rfl | omega

/-- Folding the comparator from a combined seed equals combining with
the fold afterwards. -/
theorem foldl_pickMax_shift (f : String → Nat) (ks : List String) :
    ∀ a b, ks.foldl (pickMax f) (pickMax f a b) = pickMax f a (ks.foldl (pickMax f) b) := by
  induction ks with
  | nil => intro a b; rfl
  | cons c ks ih =>
    intro a b
    show ks.foldl (pickMax f) (pickMax f (pickMax f a b) c)
      = pickMax f a (ks.foldl (pickMax f) (pickMax f b c))
    rw [pickMax_assoc, ih]

/-- The reduce without initial value (seed = first element, fold over
the rest) computes exactly the last argmax of the whole key list. -/
theorem foldl_pickMax_eq_lastArgmax (f : String → Nat) (ks : List String) :
    ∀ a, lastArgmax f (a :: ks) = some (ks.foldl (pickMax f) a) := by
  induction ks with
  | nil => intro a; rfl
  | cons b ks ih =>
    intro a
    have hb := ih b
    show (match lastArgmax f (b :: ks) with
      | none => some a
      | some w => some (if f a > f w then a else w)) = some ((b :: ks).foldl (pickMax f) a)
    rw [hb]
    show some (pickMax f a (ks.foldl (pickMax f) b)) = some (ks.foldl (pickMax f) (pickMax f a b))
    rw [foldl_pickMax_shift]

/-- The last argmax is an element of the list. -/
theorem lastArgmax_mem (f : String → Nat) :
    ∀ ks w, lastArgmax f ks = some w → w ∈ ks := by
  intro ks
  induction ks with
  | nil => intro w h; cases h
  | cons a ks ih =>
    intro w h
    cases hk : lastArgmax f ks with
    | none =>
      rw [lastArgmax, hk] at h
      cases h
      exact List.mem_cons_self a ks
    | some v =>
      rw [lastArgmax, hk] at h
      cases h
      by_cases hav : f a > f v
      · simp [hav]
      · simp only [hav, if_false]
        exact List.mem_cons_of_mem a (ih v hk)

/-- The last argmax attains the maximal value of f on the list. -/
theorem lastArgmax_le (f : String → Nat) :
    ∀ ks w, lastArgmax f ks = some w → ∀ k ∈ ks, f k ≤ f w := by
  intro ks
  induction ks with
  | nil => intro w h; cases h
  | cons a ks ih =>
    intro w h k hk
    cases hl : lastArgmax f ks with
    | none =>
      cases ks with
      | nil =>
        rw [lastArgmax, hl] at h
        cases h
        rcases List.mem_singleton.mp hk with rfl
        exact le_refl _
      | cons b ks' =>
        rw [lastArgmax] at hl
        cases hlb : lastArgmax f ks' <;> rw [hlb] at hl <;> cases hl
    | some v =>
      rw [lastArgmax, hl] at h
      cases h
      rcases List.mem_cons.mp hk with rfl | hk'
      · by_cases hav : f k > f v
        · simp [hav]
        · simp only [hav, if_false]
          omega
      · have hv := ih v hl k hk'
        by_cases hav : f a > f v
        · simp only [hav, if_true]
          omega
        · simpa [hav] using hv

/-- lastArgmax only depends on the values of f on the list. -/
theorem lastArgmax_congr (f g : String → Nat) :
    ∀ ks, (∀ k ∈ ks, f k = g k) → lastArgmax f ks = lastArgmax g ks := by
  intro ks
  induction ks with
  | nil => intro _; rfl
  | cons a ks ih =>
    intro h
    have hks : ∀ k ∈ ks, f k = g k := fun k hk => h k (List.mem_cons_of_mem a hk)
    rw [lastArgmax, lastArgmax, ih hks]
    cases hg : lastArgmax g ks with
    | none => rfl
    | some w =>
      have hw : w ∈ ks := lastArgmax_mem g ks w hg
      show some (if f a > f w then a else w) = some (if g a > g w then a else w)
      rw [h a (List.mem_cons_self a ks), hks w hw]

/-! ## The disease-count object as occurrence counts -/

/-- A key occurs in the object exactly when some entry carries it. -/
theorem any_beq_iff_mem {α : Type} (m : List (String × α)) (k : String) :
    (m.any fun p => p.1 == k) = true ↔ k ∈ m.map Prod.fst := by
  constructor
  · intro h
    rcases List.any_eq_true.mp h with ⟨p, hp, he⟩
    exact List.mem_map.mpr ⟨p, hp, by simpa using he⟩
  · intro h
    rcases List.mem_map.mp h with ⟨p, hp, he⟩
    exact List.any_eq_true.mpr ⟨p, hp, by simpa using he⟩

/-- Writing a key preserves the key list when present and appends the
key otherwise. -/
theorem setKey_map_fst {α : Type} (m : List (String × α)) (k : String) (v : α) :
    (setKey m k v).map Prod.fst =
      if k ∈ m.map Prod.fst then m.map Prod.fst else m.map Prod.fst ++ [k] := by
  by_cases hm : (m.any fun p => p.1 == k) = true
  · have hk : k ∈ m.map Prod.fst := (any_beq_iff_mem m k).mp hm
    rw [if_pos hk]
    unfold setKey
    rw [if_pos hm, List.map_map]
    apply List.map_congr_left
    intro p _
    by_cases hp : p.1 = k <;> simp [hp]
  · have hk : ¬ k ∈ m.map Prod.fst := fun hkk => hm ((any_beq_iff_mem m k).mpr hkk)
    rw [if_neg hk]
    unfold setKey
    rw [if_neg hm]
    simp

/-- Bumping a label adds one to its count and nothing to any other. -/
theorem countOf_bump (c : List (String × Nat)) (j k : String) :
    StorageManager.countOf (StorageManager.bump c j) k
      = StorageManager.countOf c k + (if j = k then 1 else 0) := by
  by_cases hj : j = k
  · subst hj
    simp [StorageManager.countOf, StorageManager.bump, lookupKey_setKey_self]
  · simp [StorageManager.countOf, StorageManager.bump,
      lookupKey_setKey_other c j k _ (fun h => hj h.symm), hj]

/-- Folding bump over a label sequence counts occurrences. -/
theorem countOf_bumpFold (L : List String) :
    ∀ (c : List (String × Nat)) (k : String),
      StorageManager.countOf (L.foldl StorageManager.bump c) k
        = StorageManager.countOf c k + L.count k := by
  induction L with
  | nil => intro c k; simp
  | cons j L ih =>
    intro c k
    rw [List.foldl_cons, ih, countOf_bump, List.count_cons]
    by_cases hj : j = k
    · subst hj
      simp [Nat.add_assoc, Nat.add_comm]
    · have hk : ¬ (k = j) := fun h => hj h.symm
      simp [hj, hk]

/-- Folding bump over a label sequence produces the keys in order of
first occurrence. -/
theorem keys_bumpFold (L : List String) :
    ∀ c : List (String × Nat),
      (L.foldl StorageManager.bump c).map Prod.fst
        = L.foldl (fun acc k => if k ∈ acc then acc else acc ++ [k]) (c.map Prod.fst) := by
  induction L with
  | nil => intro c; rfl
  | cons j L ih =>
    intro c
    rw [List.foldl_cons, ih, List.foldl_cons]
    congr 1
    rw [StorageManager.bump]
    exact setKey_map_fst c j _

/-- Membership in the first-occurrence fold. -/
theorem mem_dedupFold (L : List String) :
    ∀ (acc : List String) (k : String),
      (k ∈ L.foldl (fun acc k => if k ∈ acc then acc else acc ++ [k]) acc)
        ↔ (k ∈ acc ∨ k ∈ L) := by
  induction L with
  | nil => intro acc k; simp
  | cons j L ih =>
    intro acc k
    rw [List.foldl_cons, ih]
    by_cases hj : j ∈ acc
    · rw [if_pos hj]
      constructor
      · intro h
        rcases h with h | h
        · exact Or.inl h
        · exact Or.inr (List.mem_cons_of_mem j h)
      · intro h
        rcases h with h | h
        · exact Or.inl h
        · rcases List.mem_cons.mp h with rfl | h'
          · exact Or.inl hj
          · exact Or.inr h'
    · rw [if_neg hj]
      constructor
      · intro h
        rcases h with h | h
        · rcases List.mem_append.mp h with h' | h'
          · exact Or.inl h'
          · have hk : k = j := List.mem_singleton.mp h'
            exact Or.inr (by rw [hk]; exact List.mem_cons_self j L)
        · exact Or.inr (List.mem_cons_of_mem j h)
      · intro h
        rcases h with h | h
        · exact Or.inl (List.mem_append.mpr (Or.inl h))
        · rcases List.mem_cons.mp h with rfl | h'
          · exact Or.inl (List.mem_append.mpr (Or.inr (List.mem_singleton.mpr rfl)))
          · exact Or.inr h'

/-- A label is among the first occurrences exactly when it occurs. -/
theorem mem_firstOccurrences (L : List String) (k : String) :
    k ∈ firstOccurrences L ↔ k ∈ L := by
  have h := mem_dedupFold L [] k
  simpa [firstOccurrences] using h

/-- The counting object built by the statistics loop equals the bump
fold over the counted label sequence. -/
theorem statsFold_counts (history : List AnalysisRecord) :
    ∀ acc : StorageManager.StatsAcc,
      (history.foldl StorageManager.statsStep acc).counts
        = (nonHealthyLabels history).foldl StorageManager.bump acc.counts := by
  induction history with
  | nil => intro acc; rfl
  | cons item history ih =>
    intro acc
    rw [List.foldl_cons, ih]
    by_cases hst : item.status = "healthy"
    · have hcounts : (StorageManager.statsStep acc item).counts = acc.counts := by
        simp [StorageManager.statsStep, hst]
      have hlab : nonHealthyLabels (item :: history) = nonHealthyLabels history := by
        simp [nonHealthyLabels, List.filter_cons, hst]
      rw [hcounts, hlab]
    · by_cases hres : item.result ≠ "" ∧ item.result ≠ "Healthy Crop"
      · have hcounts : (StorageManager.statsStep acc item).counts
            = StorageManager.bump acc.counts item.result := by
          simp [StorageManager.statsStep, hst, hres]
        have hlab : nonHealthyLabels (item :: history)
            = item.result :: nonHealthyLabels history := by
          simp [nonHealthyLabels, List.filter_cons, hst, hres.1, hres.2]
        rw [hcounts, hlab, List.foldl_cons]
      · have hcounts : (StorageManager.statsStep acc item).counts = acc.counts := by
          simp [StorageManager.statsStep, hst, hres]
        have hlab : nonHealthyLabels (item :: history) = nonHealthyLabels history := by
          rcases Decidable.not_and_iff_or_not.mp hres with h | h
          · have : item.result = "" := Decidable.not_not.mp h
            simp [nonHealthyLabels, List.filter_cons, hst, this]
          · have : item.result = "Healthy Crop" := Decidable.not_not.mp h
            simp [nonHealthyLabels, List.filter_cons, hst, this]
        rw [hcounts, hlab]

/-- The reduce over the built counting object computes the last argmax
of the occurrence counts over the first-occurrence key order. -/
theorem mostCommon_bumpFold (L : List String) :
    StorageManager.mostCommon (L.foldl StorageManager.bump []) = mostCommonLastTie L := by
  have hkeys : (L.foldl StorageManager.bump []).map Prod.fst = firstOccurrences L :=
    keys_bumpFold L []
  have hcount : ∀ k, StorageManager.countOf (L.foldl StorageManager.bump []) k = L.count k := by
    intro k
    rw [countOf_bumpFold]
    simp [StorageManager.countOf, lookupKey]
  unfold StorageManager.mostCommon mostCommonLastTie
  rw [hkeys]
  cases hfo : firstOccurrences L with
  | nil => rfl
  | cons k ks =>
    show some (ks.foldl (pickMax (StorageManager.countOf (L.foldl StorageManager.bump []))) k)
      = lastArgmax (fun j => L.count j) (k :: ks)
    rw [← foldl_pickMax_eq_lastArgmax]
    exact lastArgmax_congr _ _ (k :: ks) (fun j _ => hcount j)

/-- C6 counterexample: in the two-record history whose disease labels
are tied at one occurrence each, the computed mostCommonDisease is the
label encountered second in the left-to-right scan, not the first as
the claim demands. -/
theorem mostCommonDisease_tie_counterexample :
    (StorageManager.getAnalysisStatistics tieHistory).mostCommonDisease
        = some "Maize Streak Virus"
    ∧ nonHealthyLabels tieHistory = ["Tomato Late Blight", "Maize Streak Virus"]
    ∧ (nonHealthyLabels tieHistory).count "Tomato Late Blight"
        = (nonHealthyLabels tieHistory).count "Maize Streak Virus"
    ∧ ("Maize Streak Virus" : String) ≠ "Tomato Late Blight" := by
  refine ⟨rfl, rfl, rfl, by simp⟩

/-- C6 amended: the computed mostCommonDisease is the most frequently
occurring counted non-healthy label with ties broken in favor of the
label whose first occurrence is latest during the single left-to-right
scan (mostCommonLastTie); in particular it is always a counted label of
maximal occurrence count. -/
theorem mostCommonDisease_amended (history : List AnalysisRecord) :
    (StorageManager.getAnalysisStatistics history).mostCommonDisease
        = mostCommonLastTie (nonHealthyLabels history)
    ∧ (∀ k, mostCommonLastTie (nonHealthyLabels history) = some k →
        k ∈ nonHealthyLabels history
        ∧ ∀ j ∈ nonHealthyLabels history,
            (nonHealthyLabels history).count j ≤ (nonHealthyLabels history).count k) := by
  constructor
  · by_cases hlen : history.length = 0
    · have hnil : history = [] := List.length_eq_zero.mp hlen
      subst hnil
      rfl
    · have hmc : (StorageManager.getAnalysisStatistics history).mostCommonDisease
          = StorageManager.mostCommon
              ((history.foldl StorageManager.statsStep ⟨0, 0, [], 0⟩).counts) := by
        simp [StorageManager.getAnalysisStatistics, hlen]
      rw [hmc, statsFold_counts history ⟨0, 0, [], 0⟩]
      exact mostCommon_bumpFold (nonHealthyLabels history)
  · intro k hk
    have hmem0 : k ∈ firstOccurrences (nonHealthyLabels history) :=
      lastArgmax_mem _ _ k hk
    refine ⟨(mem_firstOccurrences _ k).mp hmem0, ?_⟩
    intro j hj
    exact lastArgmax_le _ _ k hk j ((mem_firstOccurrences _ j).mpr hj)

/-- Witness for C6 at a concrete input: in the tied history the
computed winner is indeed one of the counted labels. -/
theorem mostCommonDisease_amended_witness :
    "Maize Streak Virus" ∈ nonHealthyLabels tieHistory :=
  ((mostCommonDisease_amended tieHistory).2 "Maize Streak Virus" rfl).1
